import Mathlib

/-!
Shallow embedding of `src/lib/bot.js` of mntone/discord-irc: the `Bot` class,
its constructor, `connect()` option resolution, and the IRC event handlers
installed by `attachListeners()`.  State is passed explicitly; JS `Set` is a
duplicate-free `List String`; the `channelUsers` JS object is an association
list; a JS `TypeError` (property access on `undefined`) is an explicit
`Except` error.  Outbound calls (Discord sink, warnings, raw IRC sends) are
recorded as a list of `Effect`s in emission order.
-/

namespace DiscordIrc

/-- A JS runtime exception (here always a `TypeError` from reading a property
of `undefined`). -/
inductive JsError where
  | typeError (msg : String)
deriving DecidableEq

/-- Observable side effects of a handler, in emission order.
`relayFormatted author text` is a `discordClient.sendMessage` call that first
routes `text` through the external formatter and carries a username override
(`sendToDiscord`); `relayExact text` is a verbatim `sendMessage` with no
username (`sendExactToDiscord`); `warn` is a `logger.warn` line; `joinRequest`
is `ircClient.join`; `rawSend` is `ircClient.send`. Debug/info log lines are
not modelled. -/
inductive Effect where
  | relayFormatted (author : String) (text : String)
  | relayExact (text : String)
  | warn (msg : String)
  | joinRequest (channel : String)
  | rawSend (args : List String)
deriving DecidableEq

/-- Inbound IRC events dispatched by `attachListeners`.  `names` carries
`Object.keys(nicks)` of the JS nick-to-mode object. -/
inductive Event where
  | message (author target text : String)
  | notice (author target text : String)
  | action (author target text : String)
  | join (channelName nick : String)
  | part (channelName nick reason : String)
  | quit (nick reason : String) (channels : List String)
  | names (channelName : String) (nicks : List String)
  | invite (channel fromNick : String)
  | registered
  | errorEvent (description : String)
deriving DecidableEq

/-- A value stored in the IRC options object passed to `irc.Client`. -/
inductive OptVal where
  | bool (x : Bool)
  | nat (x : Nat)
  | str (x : String)
  | strList (x : List String)
deriving DecidableEq

/-- First-match lookup in an association list (JS object property read; JS
object keys are unique, so first match is the only match). -/
def alistFind {α : Type} : List (String × α) → String → Option α
  | [], _ => none
  | (k, v) :: rest, key => if k = key then some v else alistFind rest key

/-- Property assignment on a JS object: replace the first binding of `key`,
or append a fresh one. -/
def alistSet {α : Type} : List (String × α) → String → α → List (String × α)
  | [], key, v => [(key, v)]
  | (k, w) :: rest, key, v =>
      if k = key then (key, v) :: rest else (k, w) :: alistSet rest key v

/-- `delete obj[key]`: remove every binding of `key`. -/
def alistDel {α : Type} : List (String × α) → String → List (String × α)
  | [], _ => []
  | (k, v) :: rest, key =>
      if k = key then alistDel rest key else (k, v) :: alistDel rest key

/-- JS `String.prototype.toLowerCase` as used on channel names (`#`-prefixed
ASCII in this code base): lower-case every character. -/
def jsToLower (s : String) : String :=
  ⟨s.data.map Char.toLower⟩

/-- `Set.prototype.add`: insert if absent, keep insertion order. -/
def setAdd (s : List String) (n : String) : List String :=
  if s.contains n then s else s ++ [n]

/-- The effect of `Set.prototype.delete` on the set (the Boolean the JS call
returns is recovered as `s.contains n`). -/
def setDel (s : List String) (n : String) : List String :=
  s.filter (fun m => m != n)

/-- The constructor's `options` argument.  Each required field is an
`Option String`: `none` models an absent property and `some ""` an empty
string, the two falsy cases of `!options[field]`. -/
structure Options where
  ircNickname : Option String
  ircServer : Option String
  ircChannel : Option String
  discordId : Option String
  discordToken : Option String
  ircOptions : List (String × OptVal)
  commandCharacters : List String
  channelMapping : List (String × String)
  ircStatusNotices : Bool
  announceSelfJoin : Bool
  autoSendCommands : List (List String)
deriving DecidableEq

/-- JS falsiness of an optional string field (`undefined` or `""`). -/
def falsy : Option String → Bool
  | none => true
  | some s => s.isEmpty

/-- `REQUIRED_FIELDS` from `src/lib/bot.js` line 8. -/
def REQUIRED_FIELDS : List String :=
  ["ircNickname", "ircServer", "ircChannel", "discordId", "discordToken"]

/-- Dynamic read `options[field]` for the five required fields. -/
def Options.field (o : Options) : String → Option String
  | "ircNickname" => o.ircNickname
  | "ircServer" => o.ircServer
  | "ircChannel" => o.ircChannel
  | "discordId" => o.discordId
  | "discordToken" => o.discordToken
  | _ => none

/-- The error thrown by the constructor on a missing required field. -/
structure ConfigurationError where
  message : String
deriving DecidableEq

/-- The `Bot` instance state after construction.  `channelUsers` is the
channel-name-keyed map of membership sets. -/
structure Bot where
  ircNickname : String
  ircServer : String
  ircChannel : String
  ircOptions : List (String × OptVal)
  discordId : String
  discordToken : String
  commandCharacters : List String
  channels : List String
  ircStatusNotices : Bool
  announceSelfJoin : Bool
  autoSendCommands : List (List String)
  channelUsers : List (String × List String)
deriving DecidableEq

/-- `Bot` constructor (`src/lib/bot.js` lines 18-41): `forEach` over
`REQUIRED_FIELDS` throws on the first falsy field; on success every option is
copied onto the instance, `channels` is `_.values(options.channelMapping)`,
and `channelUsers` starts as the empty object. -/
def Bot.ofOptions (o : Options) : Bot :=
  { ircNickname := o.ircNickname.getD ""
    ircServer := o.ircServer.getD ""
    ircChannel := o.ircChannel.getD ""
    ircOptions := o.ircOptions
    discordId := o.discordId.getD ""
    discordToken := o.discordToken.getD ""
    commandCharacters := o.commandCharacters
    channels := o.channelMapping.map Prod.snd
    ircStatusNotices := o.ircStatusNotices
    announceSelfJoin := o.announceSelfJoin
    autoSendCommands := o.autoSendCommands
    channelUsers := [] }

def Bot.construct (o : Options) : Except ConfigurationError Bot :=
  match REQUIRED_FIELDS.find? (fun f => falsy (o.field f)) with
  | some f => .error ⟨"Missing configuration field " ++ f⟩
  | none => .ok (Bot.ofOptions o)

/-- The defaults of the `ircOptions` object literal built by `connect()`
(lines 46-54) before the spread of `this.ircOptions`. -/
def defaultIrcOptions (b : Bot) : List (String × OptVal) :=
  [("userName", .str b.ircNickname),
   ("realName", .str b.ircNickname),
   ("channels", .strList [b.ircChannel]),
   ("floodProtection", .bool true),
   ("floodProtectionDelay", .nat 500),
   ("retryCount", .nat 10)]

/-- Key lookup in the resolved options `{ ...defaults, ...this.ircOptions }`:
a key spread in from `this.ircOptions` wins over the default. -/
def connectIrcOptions (b : Bot) (key : String) : Option OptVal :=
  match alistFind b.ircOptions key with
  | some v => some v
  | none => alistFind (defaultIrcOptions b) key

/-- `sendToDiscord` (lines 161-171): drop unless the channel equals the
configured channel exactly, else one formatted sink call with the author as
username. -/
def sendToDiscord (b : Bot) (author channel text : String) : List Effect :=
  if channel ≠ b.ircChannel then [] else [.relayFormatted author text]

/-- `sendExactToDiscord` (lines 174-179): drop unless the channel equals the
configured channel exactly, else one verbatim sink call. -/
def sendExactToDiscord (b : Bot) (channel text : String) : List Effect :=
  if channel ≠ b.ircChannel then [] else [.relayExact text]

/-- The `join` handler (lines 79-91).  When a foreign nick joins and
`this.channelUsers[channel]` is `undefined` (no prior `names` event), the
call `.add(nick)` on it throws a `TypeError`. -/
def handleJoin (b : Bot) (channelName nick : String) :
    Except JsError (Bot × List Effect) :=
  let channel := jsToLower channelName
  if channel ≠ b.ircChannel then .ok (b, [])
  else if ¬ b.ircStatusNotices then .ok (b, [])
  else if nick = b.ircNickname ∧ ¬ b.announceSelfJoin then .ok (b, [])
  else if nick ≠ b.ircNickname then
    match alistFind b.channelUsers channel with
    | none => .error (.typeError "this.channelUsers[channel] is undefined")
    | some s =>
        let b2 := { b with channelUsers := alistSet b.channelUsers channel (setAdd s nick) }
        .ok (b2, sendExactToDiscord b2 channel ("*" ++ nick ++ "* has joined the channel"))
  else
    .ok (b, sendExactToDiscord b channel ("*" ++ nick ++ "* has joined the channel"))

/-- The `part` handler (lines 93-112).  A self-part deletes the membership
set and returns; otherwise the nick is removed when the set exists (warning
when it does not) and the relay is emitted in both cases. -/
def handlePart (b : Bot) (channelName nick reason : String) : Bot × List Effect :=
  let channel := jsToLower channelName
  if channel ≠ b.ircChannel then (b, [])
  else if ¬ b.ircStatusNotices then (b, [])
  else if nick = b.ircNickname then
    ({ b with channelUsers := alistDel b.channelUsers channel }, [])
  else
    match alistFind b.channelUsers channel with
    | some s =>
        let b2 := { b with channelUsers := alistSet b.channelUsers channel (setDel s nick) }
        (b2, sendExactToDiscord b2 channel
          ("*" ++ nick ++ "* has left the channel (" ++ reason ++ ")"))
    | none =>
        (b, .warn ("No channelUsers found for " ++ channel ++ " when " ++ nick ++ " parted.")
          :: sendExactToDiscord b channel
            ("*" ++ nick ++ "* has left the channel (" ++ reason ++ ")"))

/-- One iteration of the `quit` handler's `channels.forEach` body
(lines 117-125). -/
def quitOne (b : Bot) (nick reason channelName : String) : Bot × List Effect :=
  let channel := jsToLower channelName
  match alistFind b.channelUsers channel with
  | none =>
      (b, [.warn ("No channelUsers found for " ++ channel ++ " when " ++ nick
        ++ " quit, ignoring.")])
  | some s =>
      let b2 := { b with channelUsers := alistSet b.channelUsers channel (setDel s nick) }
      if s.contains nick then
        (b2, sendExactToDiscord b2 channel ("*" ++ nick ++ "* has quit (" ++ reason ++ ")"))
      else (b2, [])

/-- The `forEach` fan-out of the `quit` handler, threading the mutated
`channelUsers` through the channel list and concatenating effects. -/
def quitLoop (b : Bot) (nick reason : String) : List String → Bot × List Effect
  | [] => (b, [])
  | ch :: rest =>
      let r := quitOne b nick reason ch
      let r2 := quitLoop r.1 nick reason rest
      (r2.1, r.2 ++ r2.2)

/-- The `quit` handler (lines 114-126). -/
def handleQuit (b : Bot) (nick reason : String) (channels : List String) :
    Bot × List Effect :=
  if ¬ b.ircStatusNotices ∨ nick = b.ircNickname then (b, [])
  else quitLoop b nick reason channels

/-- The `names` handler (lines 128-136): replace the membership set with
`new Set(Object.keys(nicks))`. -/
def handleNames (b : Bot) (channelName : String) (nicks : List String) :
    Bot × List Effect :=
  let channel := jsToLower channelName
  if channel ≠ b.ircChannel then (b, [])
  else if ¬ b.ircStatusNotices then (b, [])
  else ({ b with channelUsers := alistSet b.channelUsers channel (nicks.foldl setAdd []) }, [])

/-- The `invite` handler (lines 142-152).  `this.invertedMapping` is never
assigned anywhere in the class, so once the channel guard passes, the guard
`!this.invertedMapping[channel]` reads a property of `undefined` and throws;
the `ircClient.join` branch is unreachable. -/
def handleInvite (b : Bot) (channel _fromNick : String) :
    Except JsError (Bot × List Effect) :=
  if channel ≠ b.ircChannel then .ok (b, [])
  else .error (.typeError "this.invertedMapping is undefined")

/-- Dispatch of one inbound event to its handler, as wired by
`attachListeners` (the `notice` and `action` handlers wrap the text before
delegating to `sendToDiscord`; `registered` replays `autoSendCommands` in
order). -/
def step (b : Bot) : Event → Except JsError (Bot × List Effect)
  | .message a t text => .ok (b, sendToDiscord b a t text)
  | .notice a t text => .ok (b, sendToDiscord b a t ("*" ++ text ++ "*"))
  | .action a t text => .ok (b, sendToDiscord b a t ("_" ++ text ++ "_"))
  | .join ch n => handleJoin b ch n
  | .part ch n r => .ok (handlePart b ch n r)
  | .quit n r chs => .ok (handleQuit b n r chs)
  | .names ch nicks => .ok (handleNames b ch nicks)
  | .invite ch f => handleInvite b ch f
  | .registered => .ok (b, b.autoSendCommands.map Effect.rawSend)
  | .errorEvent _ => .ok (b, [])

/-- Run a sequence of inbound events, stopping at the first thrown
exception and discarding effects. -/
def run (b : Bot) : List Event → Except JsError Bot
  | [] => .ok b
  | e :: es =>
      match step b e with
      | .error err => .error err
      | .ok (b2, _) => run b2 es

/-- Every key of the membership map is the configured channel string. -/
def keysOnly (b : Bot) : Prop :=
  ∀ p ∈ b.channelUsers, p.1 = b.ircChannel

instance (b : Bot) : Decidable (keysOnly b) := by
  unfold keysOnly; infer_instance

/-- The Discord-sink calls among a handler's effects. -/
def sinkOnly (effs : List Effect) : List Effect :=
  effs.filter fun e =>
    match e with
    | .relayFormatted _ _ => true
    | .relayExact _ => true
    | _ => false

/-- A concrete bot for witnesses: target channel `#test`, status notices on. -/
def botW : Bot :=
  { ircNickname := "bridge"
    ircServer := "irc.example.org"
    ircChannel := "#test"
    ircOptions := [("retryCount", .nat 3)]
    discordId := "id1"
    discordToken := "tok1"
    commandCharacters := []
    channels := ["#discord"]
    ircStatusNotices := true
    announceSelfJoin := false
    autoSendCommands := []
    channelUsers := [("#test", ["alice", "bob"])] }

/-- A second concrete bot: same configuration but no membership set yet
(no `names` event has been processed). -/
def botE : Bot :=
  { botW with channelUsers := [] }

/-- The state reached from `botE` by the witness event sequence of the
membership-keys invariant. -/
def botEnd : Bot :=
  { botE with channelUsers := [("#test", ["carol"])] }

/-- A fully populated options object accepted by the constructor. -/
def optionsGood : Options :=
  { ircNickname := some "bridge"
    ircServer := some "irc.example.org"
    ircChannel := some "#test"
    discordId := some "id1"
    discordToken := some "tok1"
    ircOptions := []
    commandCharacters := []
    channelMapping := [("#discord", "#test")]
    ircStatusNotices := true
    announceSelfJoin := false
    autoSendCommands := [] }

/-- `optionsGood` with an empty `ircServer` (a falsy required field). -/
def optionsNoServer : Options :=
  { optionsGood with ircServer := some "" }

/-- `optionsGood` with two falsy required fields: an empty `ircServer` and
an absent `discordToken`. -/
def optionsTwoMissing : Options :=
  { optionsGood with ircServer := some "", discordToken := none }

/- ------------------------------------------------------------------ -/
/- Helper lemmas about the association-list and set operations.       -/
/- ------------------------------------------------------------------ -/

theorem alistFind_alistSet_self {α : Type} (m : List (String × α)) (k : String) (v : α) :
    alistFind (alistSet m k v) k = some v := by
  induction m with
  | nil => simp [alistSet, alistFind]
  | cons hd tl ih =>
      obtain ⟨k1, v1⟩ := hd
      by_cases h : k1 = k
      · subst h; simp [alistSet, alistFind]
      · simp [alistSet, alistFind, h, ih]

theorem alistFind_alistDel_self {α : Type} (m : List (String × α)) (k : String) :
    alistFind (alistDel m k) k = none := by
  induction m with
  | nil => simp [alistDel, alistFind]
  | cons hd tl ih =>
      obtain ⟨k1, v1⟩ := hd
      by_cases h : k1 = k
      · simp [alistDel, h, ih]
      · simp [alistDel, alistFind, h, ih]

theorem alistSet_of_find_eq {α : Type} (m : List (String × α)) (k : String) (v : α)
    (h : alistFind m k = some v) : alistSet m k v = m := by
  induction m with
  | nil => simp [alistFind] at h
  | cons hd tl ih =>
      obtain ⟨k1, v1⟩ := hd
      by_cases hk : k1 = k
      · subst hk
        simp [alistFind] at h
        simp [alistSet, h]
      · simp [alistFind, hk] at h
        simp [alistSet, hk, ih h]

theorem mem_alistSet {α : Type} (m : List (String × α)) (k : String) (v : α) (p : String × α)
    (hp : p ∈ alistSet m k v) : p.1 = k ∨ p ∈ m := by
  induction m with
  | nil => simp [alistSet] at hp; simp [hp]
  | cons hd tl ih =>
      obtain ⟨k1, v1⟩ := hd
      by_cases h : k1 = k
      · subst h
        simp [alistSet] at hp
        rcases hp with rfl | hp
        · left; rfl
        · right; simp [hp]
      · simp [alistSet, h] at hp
        rcases hp with rfl | hp
        · right; simp
        · rcases ih hp with h1 | h1
          · left; exact h1
          · right; simp [h1]

theorem mem_alistDel {α : Type} (m : List (String × α)) (k : String) (p : String × α)
    (hp : p ∈ alistDel m k) : p ∈ m := by
  induction m with
  | nil => simp [alistDel] at hp
  | cons hd tl ih =>
      obtain ⟨k1, v1⟩ := hd
      by_cases h : k1 = k
      · simp [alistDel, h] at hp
        simp [ih hp]
      · simp [alistDel, h] at hp
        rcases hp with rfl | hp
        · simp
        · simp [ih hp]

theorem mem_setAdd_self (s : List String) (n : String) :
    n ∈ setAdd s n := by
  unfold setAdd
  by_cases h : s.contains n
  · rw [if_pos h]
    simpa using h
  · rw [if_neg h]
    simp

/- ------------------------------------------------------------------ -/
/- Characterizations of the individual handlers.                      -/
/- ------------------------------------------------------------------ -/

theorem handlePart_self (b : Bot) (ch nick reason : String)
    (hsn : b.ircStatusNotices = true) (hch : jsToLower ch = b.ircChannel)
    (hself : nick = b.ircNickname) :
    handlePart b ch nick reason =
      ({ b with channelUsers := alistDel b.channelUsers b.ircChannel }, []) := by
  simp only [handlePart]
  rw [hch, hsn, hself]
  simp

theorem handlePart_other_some (b : Bot) (ch nick reason : String) (s : List String)
    (hsn : b.ircStatusNotices = true) (hch : jsToLower ch = b.ircChannel)
    (hnick : nick ≠ b.ircNickname)
    (hs : alistFind b.channelUsers b.ircChannel = some s) :
    handlePart b ch nick reason =
      ({ b with channelUsers := alistSet b.channelUsers b.ircChannel (setDel s nick) },
       [.relayExact ("*" ++ nick ++ "* has left the channel (" ++ reason ++ ")")]) := by
  simp only [handlePart]
  rw [hch, hsn, hs]
  simp [hnick, sendExactToDiscord]

theorem handlePart_other_none (b : Bot) (ch nick reason : String)
    (hsn : b.ircStatusNotices = true) (hch : jsToLower ch = b.ircChannel)
    (hnick : nick ≠ b.ircNickname)
    (hs : alistFind b.channelUsers b.ircChannel = none) :
    handlePart b ch nick reason =
      (b, [.warn ("No channelUsers found for " ++ b.ircChannel ++ " when " ++ nick ++ " parted."),
           .relayExact ("*" ++ nick ++ "* has left the channel (" ++ reason ++ ")")]) := by
  simp only [handlePart]
  rw [hch, hsn, hs]
  simp [hnick, sendExactToDiscord]

theorem handleJoin_other_some (b : Bot) (ch nick : String) (s : List String)
    (hsn : b.ircStatusNotices = true) (hch : jsToLower ch = b.ircChannel)
    (hnick : nick ≠ b.ircNickname)
    (hs : alistFind b.channelUsers b.ircChannel = some s) :
    handleJoin b ch nick =
      .ok ({ b with channelUsers := alistSet b.channelUsers b.ircChannel (setAdd s nick) },
        [.relayExact ("*" ++ nick ++ "* has joined the channel")]) := by
  simp only [handleJoin]
  rw [hch, hsn, hs]
  simp [hnick, sendExactToDiscord]

theorem handleJoin_other_none (b : Bot) (ch nick : String)
    (hsn : b.ircStatusNotices = true) (hch : jsToLower ch = b.ircChannel)
    (hnick : nick ≠ b.ircNickname)
    (hs : alistFind b.channelUsers b.ircChannel = none) :
    handleJoin b ch nick =
      .error (.typeError "this.channelUsers[channel] is undefined") := by
  simp only [handleJoin]
  rw [hch, hsn, hs]
  simp [hnick]

theorem handleJoin_self (b : Bot) (ch nick : String)
    (hsn : b.ircStatusNotices = true) (hch : jsToLower ch = b.ircChannel)
    (hself : nick = b.ircNickname) :
    handleJoin b ch nick =
      .ok (b, if b.announceSelfJoin then
          [.relayExact ("*" ++ nick ++ "* has joined the channel")] else []) := by
  simp only [handleJoin]
  rw [hch, hsn, hself]
  by_cases ha : b.announceSelfJoin
  · simp [ha, sendExactToDiscord]
  · simp [ha]

theorem quitOne_none (b : Bot) (nick reason ch : String)
    (hs : alistFind b.channelUsers (jsToLower ch) = none) :
    quitOne b nick reason ch =
      (b, [.warn ("No channelUsers found for " ++ jsToLower ch ++ " when " ++ nick
        ++ " quit, ignoring.")]) := by
  simp only [quitOne]
  rw [hs]

theorem quitOne_some_not_mem (b : Bot) (nick reason ch : String) (s : List String)
    (hs : alistFind b.channelUsers (jsToLower ch) = some s)
    (hmem : nick ∉ s) :
    quitOne b nick reason ch = (b, []) := by
  have hset : setDel s nick = s := by
    unfold setDel
    rw [List.filter_eq_self]
    intro a ha
    simp only [bne_iff_ne, ne_eq]
    intro heq
    exact hmem (heq ▸ ha)
  simp only [quitOne]
  rw [hs]
  simp [hmem, hset, alistSet_of_find_eq _ _ _ hs]

theorem quitOne_some_mem (b : Bot) (nick reason ch : String) (s : List String)
    (hs : alistFind b.channelUsers (jsToLower ch) = some s)
    (hmem : nick ∈ s) (hch : jsToLower ch = b.ircChannel) :
    quitOne b nick reason ch =
      ({ b with channelUsers := alistSet b.channelUsers (jsToLower ch) (setDel s nick) },
       [.relayExact ("*" ++ nick ++ "* has quit (" ++ reason ++ ")")]) := by
  simp only [quitOne]
  rw [hs]
  simp [hmem, sendExactToDiscord, hch]

theorem handleNames_match (b : Bot) (ch : String) (nicks : List String)
    (hsn : b.ircStatusNotices = true) (hch : jsToLower ch = b.ircChannel) :
    handleNames b ch nicks =
      ({ b with channelUsers := alistSet b.channelUsers b.ircChannel (nicks.foldl setAdd []) },
       []) := by
  simp only [handleNames]
  rw [hch, hsn]
  simp

/- ------------------------------------------------------------------ -/
/- Claim theorems.                                                    -/
/- ------------------------------------------------------------------ -/

/-- C3 (code bug): an `invite` event naming the configured channel makes the
handler throw a `TypeError` — `this.invertedMapping` is never assigned, so
the guard `!this.invertedMapping[channel]` reads a property of `undefined`
instead of logging-and-ignoring or joining; an invite to any other channel is
silently ignored. -/
theorem c3_invite_throws :
    step botW (.invite "#test" "dan") =
      .error (.typeError "this.invertedMapping is undefined") ∧
    step botW (.invite "#elsewhere" "dan") = .ok (botW, []) := by
  exact ⟨rfl, rfl⟩

/-- C7: whenever any required field is falsy (missing or empty), the
constructor throws a `ConfigurationError` whose message identifies a falsy
required field — and when that field is the only falsy one, the message
identifies exactly it; when every required field is present and non-empty,
construction succeeds with an empty membership map. -/
theorem c7_construct_validation (o : Options) :
    (∀ f, f ∈ REQUIRED_FIELDS → falsy (o.field f) = true →
      ∃ f2, f2 ∈ REQUIRED_FIELDS ∧ falsy (o.field f2) = true ∧
        Bot.construct o = .error ⟨"Missing configuration field " ++ f2⟩) ∧
    (∀ f, f ∈ REQUIRED_FIELDS → falsy (o.field f) = true →
      (∀ g, g ∈ REQUIRED_FIELDS → g ≠ f → falsy (o.field g) = false) →
      Bot.construct o = .error ⟨"Missing configuration field " ++ f⟩) ∧
    ((∀ f, f ∈ REQUIRED_FIELDS → falsy (o.field f) = false) →
      ∃ b, Bot.construct o = .ok b ∧ b.channelUsers = []) := by
  refine ⟨?_, ?_, ?_⟩
  · intro f hf hfal
    have hex : (REQUIRED_FIELDS.find? (fun g => falsy (o.field g))).isSome := by
      rw [List.find?_isSome]
      exact ⟨f, hf, hfal⟩
    obtain ⟨f2, hfind⟩ := Option.isSome_iff_exists.mp hex
    have hp2 : falsy (o.field f2) = true := by
      simpa using List.find?_some hfind
    refine ⟨f2, List.mem_of_find?_eq_some hfind, hp2, ?_⟩
    unfold Bot.construct
    rw [hfind]
  · intro f hf hfal hrest
    have hmem : f = "ircNickname" ∨ f = "ircServer" ∨ f = "ircChannel" ∨
        f = "discordId" ∨ f = "discordToken" := by
      simpa [REQUIRED_FIELDS] using hf
    rcases hmem with rfl | rfl | rfl | rfl | rfl
    · simp [Bot.construct, REQUIRED_FIELDS, List.find?_cons, hfal]
    · have h1 := hrest "ircNickname" (by simp [REQUIRED_FIELDS]) (by decide)
      simp [Bot.construct, REQUIRED_FIELDS, List.find?_cons, h1, hfal]
    · have h1 := hrest "ircNickname" (by simp [REQUIRED_FIELDS]) (by decide)
      have h2 := hrest "ircServer" (by simp [REQUIRED_FIELDS]) (by decide)
      simp [Bot.construct, REQUIRED_FIELDS, List.find?_cons, h1, h2, hfal]
    · have h1 := hrest "ircNickname" (by simp [REQUIRED_FIELDS]) (by decide)
      have h2 := hrest "ircServer" (by simp [REQUIRED_FIELDS]) (by decide)
      have h3 := hrest "ircChannel" (by simp [REQUIRED_FIELDS]) (by decide)
      simp [Bot.construct, REQUIRED_FIELDS, List.find?_cons, h1, h2, h3, hfal]
    · have h1 := hrest "ircNickname" (by simp [REQUIRED_FIELDS]) (by decide)
      have h2 := hrest "ircServer" (by simp [REQUIRED_FIELDS]) (by decide)
      have h3 := hrest "ircChannel" (by simp [REQUIRED_FIELDS]) (by decide)
      have h4 := hrest "discordId" (by simp [REQUIRED_FIELDS]) (by decide)
      simp [Bot.construct, REQUIRED_FIELDS, List.find?_cons, h1, h2, h3, h4, hfal]
  · intro hall
    have h1 := hall "ircNickname" (by simp [REQUIRED_FIELDS])
    have h2 := hall "ircServer" (by simp [REQUIRED_FIELDS])
    have h3 := hall "ircChannel" (by simp [REQUIRED_FIELDS])
    have h4 := hall "discordId" (by simp [REQUIRED_FIELDS])
    have h5 := hall "discordToken" (by simp [REQUIRED_FIELDS])
    refine ⟨Bot.ofOptions o, ?_, rfl⟩
    simp [Bot.construct, REQUIRED_FIELDS, List.find?_cons, h1, h2, h3, h4, h5]

/-- C7 witness: the constructor rejects `optionsTwoMissing` (two falsy
fields) naming a falsy field, rejects `optionsNoServer` naming exactly
`ircServer`, and accepts `optionsGood` with an empty membership map. -/
theorem c7_construct_validation_witness :
    (∃ f2, f2 ∈ REQUIRED_FIELDS ∧ falsy (optionsTwoMissing.field f2) = true ∧
      Bot.construct optionsTwoMissing =
        .error ⟨"Missing configuration field " ++ f2⟩) ∧
    Bot.construct optionsNoServer = .error ⟨"Missing configuration field ircServer"⟩ ∧
    ∃ b, Bot.construct optionsGood = .ok b ∧ b.channelUsers = [] := by
  exact ⟨(c7_construct_validation optionsTwoMissing).1 "discordToken" (by decide)
      (by decide),
    (c7_construct_validation optionsNoServer).2.1 "ircServer" (by decide) (by decide)
      (by decide),
    (c7_construct_validation optionsGood).2.2 (by decide)⟩

/-- C8: the options passed to `irc.Client` default to flood protection
enabled, a 500 ms flood-protection delay, a retry count of 10, and auto-join
of exactly the configured channel, and every key the caller supplies in
`ircOptions` overrides the corresponding default. -/
theorem c8_connect_options (b : Bot) (k : String) (v : OptVal) :
    (alistFind b.ircOptions k = some v → connectIrcOptions b k = some v) ∧
    (alistFind b.ircOptions "floodProtection" = none →
      connectIrcOptions b "floodProtection" = some (.bool true)) ∧
    (alistFind b.ircOptions "floodProtectionDelay" = none →
      connectIrcOptions b "floodProtectionDelay" = some (.nat 500)) ∧
    (alistFind b.ircOptions "retryCount" = none →
      connectIrcOptions b "retryCount" = some (.nat 10)) ∧
    (alistFind b.ircOptions "channels" = none →
      connectIrcOptions b "channels" = some (.strList [b.ircChannel])) := by
  refine ⟨?_, ?_, ?_, ?_, ?_⟩ <;> intro h <;>
    simp [connectIrcOptions, h, defaultIrcOptions, alistFind]

/-- C8 witness: `botW` supplies `retryCount := 3`, which overrides the
default 10, while the unsupplied keys keep their defaults. -/
theorem c8_connect_options_witness :
    alistFind botW.ircOptions "retryCount" = some (.nat 3) ∧
    connectIrcOptions botW "retryCount" = some (.nat 3) ∧
    alistFind botW.ircOptions "floodProtection" = none ∧
    connectIrcOptions botW "floodProtection" = some (.bool true) ∧
    connectIrcOptions botW "floodProtectionDelay" = some (.nat 500) ∧
    connectIrcOptions botW "channels" = some (.strList ["#test"]) := by
  refine ⟨by rfl, (c8_connect_options botW "retryCount" (.nat 3)).1 (by rfl), by rfl,
    (c8_connect_options botW "retryCount" (.nat 3)).2.1 (by rfl),
    (c8_connect_options botW "retryCount" (.nat 3)).2.2.1 (by rfl),
    (c8_connect_options botW "retryCount" (.nat 3)).2.2.2.2 (by rfl)⟩

/-- C10: handling a `message`, `notice`, `action`, `registered`, or error
event leaves the bot state — in particular the `channelUsers` membership
map — unchanged. -/
theorem c10_no_state_change (b : Bot) (a t text d : String) :
    (∃ effs, step b (.message a t text) = .ok (b, effs)) ∧
    (∃ effs, step b (.notice a t text) = .ok (b, effs)) ∧
    (∃ effs, step b (.action a t text) = .ok (b, effs)) ∧
    (∃ effs, step b .registered = .ok (b, effs)) ∧
    (∃ effs, step b (.errorEvent d) = .ok (b, effs)) := by
  exact ⟨⟨_, rfl⟩, ⟨_, rfl⟩, ⟨_, rfl⟩, ⟨_, rfl⟩, ⟨_, rfl⟩⟩

/-- C1 (counterexample): a message whose channel differs from the configured
channel only by case is dropped — no sink call, no state change — although
the two channel names are case-insensitively equal, so the claimed
case-insensitive filter does not hold for message events. -/
theorem c1_filter_counterexample :
    jsToLower "#TEST" = jsToLower botW.ircChannel ∧
    step botW (.message "alice" "#TEST" "hi") = .ok (botW, []) := by
  exact ⟨rfl, rfl⟩

/-- C1 (amended): any event whose channel fails its match is discarded with
no sink call and no membership change, but the match differs by family:
exact string equality for message/notice/action/invite, equality of the
lowercased event channel with the configured channel for join/part/names,
and presence of the lowercased channel in the membership map for each
channel of a quit fan-out; a message on the exactly matching channel is
relayed. -/
theorem c1_filter_amended (b : Bot) (a ch t nick reason fromNick : String)
    (nicks : List String) :
    (ch ≠ b.ircChannel →
      step b (.message a ch t) = .ok (b, []) ∧
      step b (.notice a ch t) = .ok (b, []) ∧
      step b (.action a ch t) = .ok (b, []) ∧
      step b (.invite ch fromNick) = .ok (b, [])) ∧
    (jsToLower ch ≠ b.ircChannel →
      step b (.join ch nick) = .ok (b, []) ∧
      step b (.part ch nick reason) = .ok (b, []) ∧
      step b (.names ch nicks) = .ok (b, [])) ∧
    (alistFind b.channelUsers (jsToLower ch) = none →
      ∃ effs, step b (.quit nick reason [ch]) = .ok (b, effs) ∧ sinkOnly effs = []) ∧
    (ch = b.ircChannel →
      step b (.message a ch t) = .ok (b, [.relayFormatted a t])) := by
  refine ⟨?_, ?_, ?_, ?_⟩
  · intro h
    refine ⟨?_, ?_, ?_, ?_⟩ <;> simp [step, sendToDiscord, handleInvite, h]
  · intro h
    refine ⟨?_, ?_, ?_⟩ <;> simp [step, handleJoin, handlePart, handleNames, h]
  · intro hq
    by_cases hg : ¬ b.ircStatusNotices ∨ nick = b.ircNickname
    · refine ⟨[], ?_, rfl⟩
      simp only [step]
      unfold handleQuit
      rw [if_pos hg]
    · have hqo := quitOne_none b nick reason ch hq
      refine ⟨[.warn ("No channelUsers found for " ++ jsToLower ch ++ " when " ++ nick
        ++ " quit, ignoring.")], ?_, rfl⟩
      simp only [step]
      unfold handleQuit
      rw [if_neg hg]
      simp [quitLoop, hqo]
  · intro h
    simp [step, sendToDiscord, h]

/-- C1 witness for the amended filter: a notice and a join from `#other`
are dropped, and a message on the exact configured channel is relayed. -/
theorem c1_filter_amended_witness :
    step botW (.notice "alice" "#other" "hi") = .ok (botW, []) ∧
    step botW (.join "#other" "carol") = .ok (botW, []) ∧
    step botW (.message "alice" "#test" "hi") =
      .ok (botW, [.relayFormatted "alice" "hi"]) := by
  exact ⟨((c1_filter_amended botW "alice" "#other" "hi" "carol" "r" "f" []).1
      (by decide)).2.1,
    ((c1_filter_amended botW "alice" "#other" "hi" "carol" "r" "f" []).2.1
      (by decide)).1,
    (c1_filter_amended botW "alice" "#test" "hi" "carol" "r" "f" []).2.2.2 rfl⟩

/-- C2 (counterexample): a join by a foreign nick arriving when the target
channel has no membership set is not tolerated — the handler throws a
`TypeError` instead of at most logging a warning. -/
theorem c2_missing_set_counterexample :
    alistFind botE.channelUsers botE.ircChannel = none ∧
    step botE (.join "#Test" "alice") =
      .error (.typeError "this.channelUsers[channel] is undefined") := by
  exact ⟨rfl, rfl⟩

/-- C2 (amended): against a missing membership set, Part and Quit are
tolerated — a warning is logged and the handler returns normally (the part
relay is still emitted) — but a Join by a foreign nick with status notices
on throws a `TypeError`. -/
theorem c2_missing_set_amended (b : Bot) (ch nick reason : String)
    (hsn : b.ircStatusNotices = true)
    (hch : jsToLower ch = b.ircChannel)
    (hnick : nick ≠ b.ircNickname)
    (hs : alistFind b.channelUsers b.ircChannel = none) :
    handlePart b ch nick reason =
      (b, [.warn ("No channelUsers found for " ++ b.ircChannel ++ " when " ++ nick
            ++ " parted."),
           .relayExact ("*" ++ nick ++ "* has left the channel (" ++ reason ++ ")")]) ∧
    handleQuit b nick reason [ch] =
      (b, [.warn ("No channelUsers found for " ++ b.ircChannel ++ " when " ++ nick
        ++ " quit, ignoring.")]) ∧
    handleJoin b ch nick =
      .error (.typeError "this.channelUsers[channel] is undefined") := by
  refine ⟨handlePart_other_none b ch nick reason hsn hch hnick hs, ?_,
    handleJoin_other_none b ch nick hsn hch hnick hs⟩
  have hqo := quitOne_none b nick reason ch (by rw [hch]; exact hs)
  unfold handleQuit
  rw [if_neg (by simp [hsn, hnick])]
  simp [quitLoop, hqo, hch]

/-- C2 witness: with `botE` (no membership set), a part by `alice` warns and
returns, a quit by `alice` warns and returns, and a join by `alice` throws. -/
theorem c2_missing_set_amended_witness :
    handlePart botE "#test" "alice" "bye" =
      (botE, [.warn "No channelUsers found for #test when alice parted.",
              .relayExact "*alice* has left the channel (bye)"]) ∧
    handleQuit botE "alice" "bye" ["#test"] =
      (botE, [.warn "No channelUsers found for #test when alice quit, ignoring."]) ∧
    handleJoin botE "#test" "alice" =
      .error (.typeError "this.channelUsers[channel] is undefined") := by
  exact c2_missing_set_amended botE "#test" "alice" "bye" rfl rfl (by decide) rfl

/-- C4 (counterexample): with status notices on but no membership set for
the target channel, a foreign join does not add the actor and emits no
relay — it throws a `TypeError` instead, refuting the unconditional claim. -/
theorem c4_join_counterexample :
    botE.ircStatusNotices = true ∧
    handleJoin botE "#test" "carol" =
      .error (.typeError "this.channelUsers[channel] is undefined") := by
  exact ⟨rfl, rfl⟩

/-- C4 (amended): provided the target channel's membership set exists, a
join by a foreign nick with status notices on adds the actor to the set and
emits exactly one exact relay; a join by the own nickname never touches the
set and is relayed only when `announceSelfJoin` is set. -/
theorem c4_join_policy (b : Bot) (ch nick : String) (s : List String)
    (hsn : b.ircStatusNotices = true) (hch : jsToLower ch = b.ircChannel) :
    (nick ≠ b.ircNickname → alistFind b.channelUsers b.ircChannel = some s →
      ∃ b2, handleJoin b ch nick =
          .ok (b2, [.relayExact ("*" ++ nick ++ "* has joined the channel")]) ∧
        alistFind b2.channelUsers b.ircChannel = some (setAdd s nick) ∧
        nick ∈ setAdd s nick) ∧
    (nick = b.ircNickname → b.announceSelfJoin = true →
      handleJoin b ch nick =
        .ok (b, [.relayExact ("*" ++ nick ++ "* has joined the channel")])) ∧
    (nick = b.ircNickname → b.announceSelfJoin = false →
      handleJoin b ch nick = .ok (b, [])) := by
  refine ⟨?_, ?_, ?_⟩
  · intro hnick hs
    exact ⟨_, handleJoin_other_some b ch nick s hsn hch hnick hs,
      alistFind_alistSet_self _ _ _, mem_setAdd_self _ _⟩
  · intro hself ha
    have h := handleJoin_self b ch nick hsn hch hself
    rw [ha] at h
    simpa using h
  · intro hself ha
    have h := handleJoin_self b ch nick hsn hch hself
    rw [ha] at h
    simpa using h

/-- C4 witness: `carol` joining `#TEST` lands in the membership set with one
relay; the bridge's own join (with `announceSelfJoin` off) changes and emits
nothing. -/
theorem c4_join_policy_witness :
    (∃ b2, handleJoin botW "#TEST" "carol" =
        .ok (b2, [.relayExact "*carol* has joined the channel"]) ∧
      alistFind b2.channelUsers botW.ircChannel =
        some (setAdd ["alice", "bob"] "carol") ∧
      "carol" ∈ setAdd ["alice", "bob"] "carol") ∧
    handleJoin botW "#TEST" "bridge" = .ok (botW, []) := by
  exact ⟨(c4_join_policy botW "#TEST" "carol" ["alice", "bob"] rfl rfl).1
      (by decide) rfl,
    (c4_join_policy botW "#TEST" "bridge" [] rfl rfl).2.2 rfl rfl⟩

/-- C5: a quit is dropped wholesale when status notices are off or the
quitter is the bridge itself; otherwise the handler walks the event's
channel list in order (`quitLoop`), and per channel: warns and skips when no
membership set exists, stays silent when the nick was untracked, and
otherwise removes the nick and emits exactly one exact relay. -/
theorem c5_quit_policy (b : Bot) (nick reason ch : String) (chs : List String) :
    ((¬ b.ircStatusNotices ∨ nick = b.ircNickname) →
      handleQuit b nick reason chs = (b, [])) ∧
    (b.ircStatusNotices = true → nick ≠ b.ircNickname →
      handleQuit b nick reason chs = quitLoop b nick reason chs) ∧
    (quitLoop b nick reason [] = (b, [])) ∧
    (quitLoop b nick reason (ch :: chs) =
      ((quitLoop (quitOne b nick reason ch).1 nick reason chs).1,
       (quitOne b nick reason ch).2 ++
         (quitLoop (quitOne b nick reason ch).1 nick reason chs).2)) ∧
    (alistFind b.channelUsers (jsToLower ch) = none →
      quitOne b nick reason ch =
        (b, [.warn ("No channelUsers found for " ++ jsToLower ch ++ " when " ++ nick
          ++ " quit, ignoring.")])) ∧
    (∀ s, alistFind b.channelUsers (jsToLower ch) = some s → nick ∉ s →
      quitOne b nick reason ch = (b, [])) ∧
    (∀ s, alistFind b.channelUsers (jsToLower ch) = some s → nick ∈ s →
      jsToLower ch = b.ircChannel →
      ∃ b2, quitOne b nick reason ch =
        (b2, [.relayExact ("*" ++ nick ++ "* has quit (" ++ reason ++ ")")]) ∧
        alistFind b2.channelUsers (jsToLower ch) = some (setDel s nick)) := by
  refine ⟨?_, ?_, rfl, rfl, quitOne_none b nick reason ch, ?_, ?_⟩
  · intro hg
    unfold handleQuit
    rw [if_pos hg]
  · intro hsn hnick
    unfold handleQuit
    rw [if_neg (by simp [hsn, hnick])]
  · intro s hs hmem
    exact quitOne_some_not_mem b nick reason ch s hs hmem
  · intro s hs hmem hch
    exact ⟨_, quitOne_some_mem b nick reason ch s hs hmem hch,
      alistFind_alistSet_self _ _ _⟩

/-- C5 witness (the spec's two-channel scenario): the bridge's own quit is
dropped; `alice` quitting across `["#test", "#b"]` relays once for `#test`
and only warns for untracked `#b`; `carol` (untracked nick) quitting from
`#test` stays silent. -/
theorem c5_quit_policy_witness :
    handleQuit botW "bridge" "bye" ["#test"] = (botW, []) ∧
    quitOne botW "alice" "bye" "#B" =
      (botW, [.warn "No channelUsers found for #b when alice quit, ignoring."]) ∧
    (∃ b2, quitOne botW "alice" "bye" "#test" =
      (b2, [.relayExact "*alice* has quit (bye)"]) ∧
      alistFind b2.channelUsers "#test" = some (setDel ["alice", "bob"] "alice")) ∧
    quitOne botW "carol" "bye" "#test" = (botW, []) := by
  refine ⟨(c5_quit_policy botW "bridge" "bye" "#x" ["#test"]).1 (Or.inr rfl), ?_, ?_, ?_⟩
  · exact (c5_quit_policy botW "alice" "bye" "#B" []).2.2.2.2.1 rfl
  · exact (c5_quit_policy botW "alice" "bye" "#test" []).2.2.2.2.2.2
      ["alice", "bob"] rfl (by decide) rfl
  · exact (c5_quit_policy botW "carol" "bye" "#test" []).2.2.2.2.2.1
      ["alice", "bob"] rfl (by decide)

/-- C6: with status notices on and a channel lowercasing to the configured
channel, a self-part deletes the membership set entirely and emits nothing;
any other part removes the actor when the set exists (warns when absent)
and emits exactly one exact relay. -/
theorem c6_part_policy (b : Bot) (ch nick reason : String)
    (hsn : b.ircStatusNotices = true)
    (hch : jsToLower ch = b.ircChannel) :
    (nick = b.ircNickname →
      ∃ b2, handlePart b ch nick reason = (b2, []) ∧
        alistFind b2.channelUsers b.ircChannel = none) ∧
    (nick ≠ b.ircNickname →
      (∀ s, alistFind b.channelUsers b.ircChannel = some s →
        ∃ b2, handlePart b ch nick reason =
          (b2, [.relayExact ("*" ++ nick ++ "* has left the channel ("
            ++ reason ++ ")")]) ∧
          alistFind b2.channelUsers b.ircChannel = some (setDel s nick)) ∧
      (alistFind b.channelUsers b.ircChannel = none →
        handlePart b ch nick reason =
          (b, [.warn ("No channelUsers found for " ++ b.ircChannel ++ " when "
                ++ nick ++ " parted."),
               .relayExact ("*" ++ nick ++ "* has left the channel ("
                ++ reason ++ ")")]))) := by
  refine ⟨?_, fun hnick => ⟨?_, ?_⟩⟩
  · intro hself
    exact ⟨_, handlePart_self b ch nick reason hsn hch hself,
      alistFind_alistDel_self _ _⟩
  · intro s hs
    exact ⟨_, handlePart_other_some b ch nick reason s hsn hch hnick hs,
      alistFind_alistSet_self _ _ _⟩
  · intro hs
    exact handlePart_other_none b ch nick reason hsn hch hnick hs

/-- C6 witness: the bridge parting `#TesT` leaves no membership set and no
relay; `alice` parting removes her and emits the exact relay. -/
theorem c6_part_policy_witness :
    (∃ b2, handlePart botW "#TesT" "bridge" "bye" = (b2, []) ∧
      alistFind b2.channelUsers botW.ircChannel = none) ∧
    (∃ b2, handlePart botW "#TesT" "alice" "bye" =
        (b2, [.relayExact "*alice* has left the channel (bye)"]) ∧
      alistFind b2.channelUsers botW.ircChannel =
        some (setDel ["alice", "bob"] "alice")) := by
  exact ⟨(c6_part_policy botW "#TesT" "bridge" "bye" rfl rfl).1 rfl,
    ((c6_part_policy botW "#TesT" "alice" "bye" rfl rfl).2 (by decide)).1 _ rfl⟩

theorem mem_of_alistFind {α : Type} (m : List (String × α)) (k : String) (v : α)
    (h : alistFind m k = some v) : (k, v) ∈ m := by
  induction m with
  | nil => simp [alistFind] at h
  | cons hd tl ih =>
      obtain ⟨k1, v1⟩ := hd
      by_cases hk : k1 = k
      · subst hk
        simp [alistFind] at h
        simp [h]
      · simp [alistFind, hk] at h
        simp [ih h]

theorem quitOne_preserves (b : Bot) (nick reason ch : String) (hinv : keysOnly b) :
    keysOnly (quitOne b nick reason ch).1 ∧
    (quitOne b nick reason ch).1.ircChannel = b.ircChannel ∧
    (quitOne b nick reason ch).1.ircStatusNotices = b.ircStatusNotices ∧
    (quitOne b nick reason ch).1.ircNickname = b.ircNickname := by
  cases hfind : alistFind b.channelUsers (jsToLower ch) with
  | none =>
      rw [quitOne_none b nick reason ch hfind]
      exact ⟨hinv, rfl, rfl, rfl⟩
  | some s =>
      have hkey : jsToLower ch = b.ircChannel :=
        hinv _ (mem_of_alistFind _ _ _ hfind)
      by_cases hmem : nick ∈ s
      · rw [quitOne_some_mem b nick reason ch s hfind hmem hkey]
        refine ⟨?_, rfl, rfl, rfl⟩
        intro p hp
        rcases mem_alistSet _ _ _ _ hp with h1 | h1
        · exact h1.trans hkey
        · exact hinv _ h1
      · rw [quitOne_some_not_mem b nick reason ch s hfind hmem]
        exact ⟨hinv, rfl, rfl, rfl⟩

theorem quitLoop_preserves (nick reason : String) (chs : List String) :
    ∀ b : Bot, keysOnly b →
      keysOnly (quitLoop b nick reason chs).1 ∧
      (quitLoop b nick reason chs).1.ircChannel = b.ircChannel := by
  induction chs with
  | nil => exact fun b hinv => ⟨hinv, rfl⟩
  | cons ch rest ih =>
      intro b hinv
      have h1 := quitOne_preserves b nick reason ch hinv
      have h2 := ih (quitOne b nick reason ch).1 h1.1
      simp only [quitLoop]
      exact ⟨h2.1, h2.2.trans h1.2.1⟩

theorem step_preserves_keys (b b2 : Bot) (e : Event) (effs : List Effect)
    (hstep : step b e = .ok (b2, effs)) (hinv : keysOnly b) :
    keysOnly b2 ∧ b2.ircChannel = b.ircChannel := by
  cases e with
  | message a t text =>
      simp only [step, Except.ok.injEq, Prod.mk.injEq] at hstep
      obtain ⟨rfl, -⟩ := hstep
      exact ⟨hinv, rfl⟩
  | notice a t text =>
      simp only [step, Except.ok.injEq, Prod.mk.injEq] at hstep
      obtain ⟨rfl, -⟩ := hstep
      exact ⟨hinv, rfl⟩
  | action a t text =>
      simp only [step, Except.ok.injEq, Prod.mk.injEq] at hstep
      obtain ⟨rfl, -⟩ := hstep
      exact ⟨hinv, rfl⟩
  | registered =>
      simp only [step, Except.ok.injEq, Prod.mk.injEq] at hstep
      obtain ⟨rfl, -⟩ := hstep
      exact ⟨hinv, rfl⟩
  | errorEvent d =>
      simp only [step, Except.ok.injEq, Prod.mk.injEq] at hstep
      obtain ⟨rfl, -⟩ := hstep
      exact ⟨hinv, rfl⟩
  | invite ch f =>
      simp only [step] at hstep
      by_cases hch : ch = b.ircChannel
      · have hh : handleInvite b ch f =
            .error (.typeError "this.invertedMapping is undefined") := by
          simp [handleInvite, hch]
        rw [hh] at hstep
        cases hstep
      · have hh : handleInvite b ch f = .ok (b, []) := by
          simp [handleInvite, hch]
        rw [hh] at hstep
        simp only [Except.ok.injEq, Prod.mk.injEq] at hstep
        obtain ⟨rfl, -⟩ := hstep
        exact ⟨hinv, rfl⟩
  | names ch nicks =>
      simp only [step, Except.ok.injEq] at hstep
      by_cases hch : jsToLower ch = b.ircChannel
      · by_cases hsn : b.ircStatusNotices = true
        · rw [handleNames_match b ch nicks hsn hch] at hstep
          simp only [Prod.mk.injEq] at hstep
          obtain ⟨rfl, -⟩ := hstep
          refine ⟨?_, rfl⟩
          intro p hp
          rcases mem_alistSet _ _ _ _ hp with h1 | h1
          · exact h1
          · exact hinv _ h1
        · have hh : handleNames b ch nicks = (b, []) := by
            simp [handleNames, hch, hsn]
          rw [hh] at hstep
          simp only [Prod.mk.injEq] at hstep
          obtain ⟨rfl, -⟩ := hstep
          exact ⟨hinv, rfl⟩
      · have hh : handleNames b ch nicks = (b, []) := by
          simp [handleNames, hch]
        rw [hh] at hstep
        simp only [Prod.mk.injEq] at hstep
        obtain ⟨rfl, -⟩ := hstep
        exact ⟨hinv, rfl⟩
  | quit nick reason chs =>
      simp only [step, Except.ok.injEq] at hstep
      by_cases hg : ¬ b.ircStatusNotices ∨ nick = b.ircNickname
      · have hq : handleQuit b nick reason chs = (b, []) := by
          unfold handleQuit
          rw [if_pos hg]
        rw [hq] at hstep
        simp only [Prod.mk.injEq] at hstep
        obtain ⟨rfl, -⟩ := hstep
        exact ⟨hinv, rfl⟩
      · have hq : handleQuit b nick reason chs = quitLoop b nick reason chs := by
          unfold handleQuit
          rw [if_neg hg]
        rw [hq] at hstep
        have hloop := quitLoop_preserves nick reason chs b hinv
        have hb2 : b2 = (quitLoop b nick reason chs).1 := by
          rw [hstep]
        rw [hb2]
        exact hloop
  | join ch nick =>
      simp only [step] at hstep
      by_cases hch : jsToLower ch = b.ircChannel
      · by_cases hsn : b.ircStatusNotices = true
        · by_cases hself : nick = b.ircNickname
          · rw [handleJoin_self b ch nick hsn hch hself] at hstep
            simp only [Except.ok.injEq, Prod.mk.injEq] at hstep
            obtain ⟨rfl, -⟩ := hstep
            exact ⟨hinv, rfl⟩
          · cases hfind : alistFind b.channelUsers b.ircChannel with
            | none =>
                rw [handleJoin_other_none b ch nick hsn hch hself hfind] at hstep
                cases hstep
            | some s =>
                rw [handleJoin_other_some b ch nick s hsn hch hself hfind] at hstep
                simp only [Except.ok.injEq, Prod.mk.injEq] at hstep
                obtain ⟨rfl, -⟩ := hstep
                refine ⟨?_, rfl⟩
                intro p hp
                rcases mem_alistSet _ _ _ _ hp with h1 | h1
                · exact h1
                · exact hinv _ h1
        · have hh : handleJoin b ch nick = .ok (b, []) := by
            simp [handleJoin, hch, hsn]
          rw [hh] at hstep
          simp only [Except.ok.injEq, Prod.mk.injEq] at hstep
          obtain ⟨rfl, -⟩ := hstep
          exact ⟨hinv, rfl⟩
      · have hh : handleJoin b ch nick = .ok (b, []) := by
          simp [handleJoin, hch]
        rw [hh] at hstep
        simp only [Except.ok.injEq, Prod.mk.injEq] at hstep
        obtain ⟨rfl, -⟩ := hstep
        exact ⟨hinv, rfl⟩
  | part ch nick reason =>
      simp only [step, Except.ok.injEq] at hstep
      by_cases hch : jsToLower ch = b.ircChannel
      · by_cases hsn : b.ircStatusNotices = true
        · by_cases hself : nick = b.ircNickname
          · rw [handlePart_self b ch nick reason hsn hch hself] at hstep
            simp only [Prod.mk.injEq] at hstep
            obtain ⟨rfl, -⟩ := hstep
            refine ⟨?_, rfl⟩
            intro p hp
            exact hinv _ (mem_alistDel _ _ _ hp)
          · cases hfind : alistFind b.channelUsers b.ircChannel with
            | some s =>
                rw [handlePart_other_some b ch nick reason s hsn hch hself hfind] at hstep
                simp only [Prod.mk.injEq] at hstep
                obtain ⟨rfl, -⟩ := hstep
                refine ⟨?_, rfl⟩
                intro p hp
                rcases mem_alistSet _ _ _ _ hp with h1 | h1
                · exact h1
                · exact hinv _ h1
            | none =>
                rw [handlePart_other_none b ch nick reason hsn hch hself hfind] at hstep
                simp only [Prod.mk.injEq] at hstep
                obtain ⟨rfl, -⟩ := hstep
                exact ⟨hinv, rfl⟩
        · have hh : handlePart b ch nick reason = (b, []) := by
            simp [handlePart, hch, hsn]
          rw [hh] at hstep
          simp only [Prod.mk.injEq] at hstep
          obtain ⟨rfl, -⟩ := hstep
          exact ⟨hinv, rfl⟩
      · have hh : handlePart b ch nick reason = (b, []) := by
          simp [handlePart, hch]
        rw [hh] at hstep
        simp only [Prod.mk.injEq] at hstep
        obtain ⟨rfl, -⟩ := hstep
        exact ⟨hinv, rfl⟩

/-- C9: along any run of inbound events that does not throw, every key ever
present in the membership map is exactly the configured channel string, and
the configured channel itself never changes. -/
theorem c9_keys_invariant (b : Bot) (es : List Event) (b2 : Bot)
    (hinv : keysOnly b) (hrun : run b es = .ok b2) :
    keysOnly b2 ∧ b2.ircChannel = b.ircChannel := by
  induction es generalizing b with
  | nil =>
      simp only [run, Except.ok.injEq] at hrun
      rw [← hrun]
      exact ⟨hinv, rfl⟩
  | cons e rest ih =>
      simp only [run] at hrun
      cases hstep : step b e with
      | error err =>
          rw [hstep] at hrun
          cases hrun
      | ok p =>
          obtain ⟨b1, effs⟩ := p
          rw [hstep] at hrun
          have hp := step_preserves_keys b b1 e effs hstep hinv
          have hr := ih b1 hp.1 hrun
          exact ⟨hr.1, hr.2.trans hp.2⟩

/-- C9 witness: from a freshly constructed state, a names/join/quit/part
sequence with mixed-case channels ends with the map keyed exactly by
`#test`. -/
theorem c9_keys_invariant_witness :
    keysOnly botE ∧
    run botE [.names "#TEST" ["alice", "bob"], .join "#Test" "carol",
      .quit "alice" "bye" ["#test"], .part "#test" "bob" "x"] = .ok botEnd ∧
    (keysOnly botEnd ∧ botEnd.ircChannel = botE.ircChannel) := by
  refine ⟨by decide, by rfl, ?_⟩
  exact c9_keys_invariant botE
    [.names "#TEST" ["alice", "bob"], .join "#Test" "carol",
      .quit "alice" "bye" ["#test"], .part "#test" "bob" "x"] botEnd
    (by decide) (by rfl)
